import Mathlib

/-!
Verification development for the upgrade-details progress tracker
(`internal/pkg/agent/application/upgrade/details/details.go`) and its
download-rate codec.  The tracker is embedded as a pure state machine:
every Go method that mutates a `Details` value and then notifies the
registered observers is modelled as a function returning the new state
together with the list of notification events (observer, argument) the
call delivers, in delivery order.  Observers are kept abstract (a type
parameter `Ob`): in Go they are callbacks, here they are opaque handles
carried around so that statements about *which* observer is invoked,
*how often* and *in which order* can be made.  The mutex only serializes
calls and is invisible in this sequential model.
-/

namespace UpgradeDetails

/-- Modelled from the spec: the closed set of lifecycle states (§4.2:
`NotStarted`, `Scheduled`, `Downloading`, `ExtractInProgress`, `Watching`,
`Completed`, `Failed`).  The Go `State` type is declared outside the given
sources; it is a string type, whose empty string `""` is the zero value used
when failure metadata is cleared, so it is kept as a string here.  No claim
depends on the concrete spelling of the constants, only on their being
distinct from each other and from `""`. -/
abbrev State := String

def stateNotStarted : State := "NotStarted"

def stateScheduled : State := "Scheduled"

def stateDownloading : State := "Downloading"

def stateExtracting : State := "ExtractInProgress"

def stateWatching : State := "Watching"

def stateCompleted : State := "Completed"

def stateFailed : State := "Failed"

/-- A Go `float64` as it occurs in this code: finite values are idealised as
exact rationals, positive and negative infinity are explicit constructors
(`math.IsInf(x, 0)` holds for both).  NaN does not occur in any claim and is
not modelled. -/
inductive GoFloat where
  | finite (q : ℚ)
  | posInf
  | negInf
deriving DecidableEq

/-- A Go `error` value, reduced to the string its `Error()` method returns. -/
structure GoError where
  msg : String

/-- Go `error.Error()`. -/
def GoError.Error (e : GoError) : String := e.msg

/-- A `time.Time`, split into the semantic instant (what `time.Time.Equal`
compares) and a representation component (location / wall-clock presentation)
that `Equal` ignores although Go `==` on `time.Time` would compare it. -/
structure Time where
  instant : ℤ
  loc : String
deriving DecidableEq

/-- `time.Time.Equal`: semantic time-instant comparison, ignoring the
representation component. -/
def Time.Equal (t otherT : Time) : Bool := decide (t.instant = otherT.instant)

/-- `equalTimePointers` from details.go, with `*time.Time` modelled as
`Option Time` (`none` = nil).  The Go pointer-equality fast path (`t == otherT`)
returns true when both are nil — the `none, none` case — or when both are the
same pointer, in which case `t.Equal` is also true, so it is subsumed by the
`some, some` case. -/
def equalTimePointers : Option Time → Option Time → Bool
  | none, none => true
  | some t, some otherT => t.Equal otherT
  | _, _ => false

/-- `Metadata` from details.go (the serializable auxiliary fields).
`DownloadPercent` and `DownloadRate` are Go `float64`s. -/
structure Metadata where
  scheduledAt : Option Time
  downloadPercent : GoFloat
  downloadRate : GoFloat
  failedState : State
  errorMsg : String

/-- The Go zero value `Metadata{}`. -/
def emptyMetadata : Metadata :=
  { scheduledAt := none, downloadPercent := .finite 0, downloadRate := .finite 0,
    failedState := "", errorMsg := "" }

/-- `Metadata.Equals` from details.go: field-wise comparison, with the
timestamps compared through `equalTimePointers` and the remaining fields with
Go `==` (decidable equality; the NaN-free float model makes `==` coincide with
equality). -/
def Metadata.Equals (m otherM : Metadata) : Bool :=
  equalTimePointers m.scheduledAt otherM.scheduledAt &&
  decide (m.failedState = otherM.failedState) &&
  decide (m.errorMsg = otherM.errorMsg) &&
  decide (m.downloadPercent = otherM.downloadPercent) &&
  decide (m.downloadRate = otherM.downloadRate)

/-- `Details` from details.go.  The observer list is kept (abstractly, as
opaque handles of type `Ob`); the mutex is a synchronization artefact with no
sequential meaning and is dropped. -/
structure Details (Ob : Type) where
  targetVersion : String
  state : State
  actionID : String
  metadata : Metadata
  observers : List Ob

/-- `NewDetails` from details.go: empty metadata, no observers. -/
def NewDetails {Ob : Type} (targetVersion : String) (initialState : State)
    (actionID : String) : Details Ob :=
  { targetVersion := targetVersion, state := initialState, actionID := actionID,
    metadata := emptyMetadata, observers := [] }

/-- The copy built in `notifyObserver`: only the serializable fields are
copied; the observer list (and the lock) are not part of the copy. -/
def Details.snapshotCopy {Ob : Type} (d : Details Ob) : Details Ob :=
  { targetVersion := d.targetVersion, state := d.state, actionID := d.actionID,
    metadata := d.metadata, observers := [] }

/-- The argument `notifyObserver` passes to one observer: `nil` (`none`) when
the state is `StateCompleted`, otherwise a fresh copy of the snapshot. -/
def Details.notifyArg {Ob : Type} (d : Details Ob) : Option (Details Ob) :=
  if d.state = stateCompleted then none else some d.snapshotCopy

/-- `notifyObservers` from details.go, as the list of notification events it
produces: each registered observer, in registration order, paired with the
argument it is invoked with. -/
def Details.notifyObservers {Ob : Type} (d : Details Ob) :
    List (Ob × Option (Details Ob)) :=
  d.observers.map fun ob => (ob, d.notifyArg)

/-- `Details.SetState`: assign the state; when the new state is not
`StateFailed`, unconditionally clear `ErrorMsg` and `FailedState`; then notify
all observers.  Returns the new tracker state and the notification events. -/
def Details.SetState {Ob : Type} (d : Details Ob) (s : State) :
    Details Ob × List (Ob × Option (Details Ob)) :=
  let d1 : Details Ob :=
    { d with
      state := s,
      metadata :=
        if s ≠ stateFailed
        then { d.metadata with errorMsg := "", failedState := "" }
        else d.metadata }
  (d1, d1.notifyObservers)

/-- `Details.SetDownloadProgress`: store percent and rate (no bounds
validation), then notify all observers. -/
def Details.SetDownloadProgress {Ob : Type} (d : Details Ob)
    (percent rateBytesPerSecond : GoFloat) :
    Details Ob × List (Ob × Option (Details Ob)) :=
  let d1 : Details Ob :=
    { d with
      metadata :=
        { d.metadata with
          downloadPercent := percent, downloadRate := rateBytesPerSecond } }
  (d1, d1.notifyObservers)

/-- `Details.Fail`: record the pre-failure state in `FailedState`, but only
when the current state is not already `StateFailed`; set `ErrorMsg` from the
error and move the state to `StateFailed`; then notify all observers. -/
def Details.Fail {Ob : Type} (d : Details Ob) (err : GoError) :
    Details Ob × List (Ob × Option (Details Ob)) :=
  let recordedFailedState :=
    if d.state ≠ stateFailed then d.state else d.metadata.failedState
  let d1 : Details Ob :=
    { d with
      state := stateFailed,
      metadata :=
        { d.metadata with
          failedState := recordedFailedState, errorMsg := err.Error } }
  (d1, d1.notifyObservers)

/-- `Details.RegisterObserver`: append the observer, then immediately notify
just the newly registered observer. -/
def Details.RegisterObserver {Ob : Type} (d : Details Ob) (ob : Ob) :
    Details Ob × List (Ob × Option (Details Ob)) :=
  let d1 : Details Ob := { d with observers := d.observers ++ [ob] }
  (d1, [(ob, d1.notifyArg)])

/-- `Details.Equals` from details.go, with the nil-able `*Details` receiver and
argument modelled as `Option (Details Ob)`.  The Go pointer-equality fast path
(`d == otherD`) covers two nils — the `none, none` case — or identical
pointers, whose field-wise comparison succeeds anyway, so it is subsumed by
the `some, some` case.  The observer list and the mutex are not compared. -/
def Details.Equals {Ob : Type} : Option (Details Ob) → Option (Details Ob) → Bool
  | none, none => true
  | some d, some otherD =>
      decide (d.state = otherD.state) &&
      decide (d.targetVersion = otherD.targetVersion) &&
      decide (d.actionID = otherD.actionID) &&
      d.metadata.Equals otherD.metadata
  | _, _ => false

/-- The tracker states reachable by some sequence of `NewDetails` /
`SetState` / `SetDownloadProgress` / `Fail` calls (the mutating history
quantified over in the invariant claim). -/
inductive Reachable {Ob : Type} : Details Ob → Prop where
  | create (targetVersion : String) (initialState : State) (actionID : String) :
      Reachable (NewDetails targetVersion initialState actionID)
  | setState {d : Details Ob} (s : State) :
      Reachable d → Reachable (d.SetState s).1
  | setDownloadProgress {d : Details Ob} (percent rate : GoFloat) :
      Reachable d → Reachable (d.SetDownloadProgress percent rate).1
  | fail {d : Details Ob} (err : GoError) :
      Reachable d → Reachable (d.Fail err).1

/-! ### Rate codec

`downloadRate.MarshalJSON` / `UnmarshalJSON` delegate the numeric formatting
and parsing to the repository's pinned dependency `docker/go-units` (v0.5.0):
`HumanSizeWithPrecision(rate, 2)` on the way out, `FromHumanSize` on the way
in.  The dependency's two functions are embedded below from the library
source, idealising `float64` arithmetic over exact rationals (the decimal
divisions and the 2-significant-digit rounding of the values appearing in any
theorem are far from binary-rounding boundaries). -/

/-- Fuel-based helper for `decLog` (one step strips one decimal digit). -/
def decDigitsAux : ℕ → ℕ → ℕ
  | 0, _ => 0
  | fuel + 1, n => if n < 10 then 0 else decDigitsAux fuel (n / 10) + 1

/-- Largest `e` with `10 ^ e ≤ n`, for `n ≥ 1` (decimal logarithm). -/
def decLog (n : ℕ) : ℕ := decDigitsAux n n

/-- Fuel-based helper for `decClog`. -/
def decClogAux : ℕ → ℕ → ℕ
  | 0, _ => 0
  | fuel + 1, c => if c ≤ 1 then 0 else decClogAux fuel ((c + 9) / 10) + 1

/-- Smallest `k` with `c ≤ 10 ^ k` (decimal ceiling logarithm). -/
def decClog (c : ℕ) : ℕ := decClogAux c c

/-- `10 ^ e` over the rationals, for an integer exponent. -/
def pow10 : ℤ → ℚ
  | .ofNat n => ((10 ^ n : ℕ) : ℚ)
  | .negSucc n => 1 / ((10 ^ (n + 1) : ℕ) : ℚ)

/-- Floor of a rational, computed directly from its reduced representation
(the denominator is positive, so floor division of numerator by denominator). -/
def ratFloor (q : ℚ) : ℤ := q.num.fdiv (q.den : ℤ)

/-- Absolute value of a rational. -/
def ratAbs (q : ℚ) : ℚ := if q < 0 then -q else q

/-- Decimal exponent of a positive rational: the `e` with
`10 ^ e ≤ q < 10 ^ (e + 1)`. -/
def decExp (q : ℚ) : ℤ :=
  if 1 ≤ q then (decLog (ratFloor q).toNat : ℤ)
  else -(decClog ((q.den + q.num.toNat - 1) / q.num.toNat) : ℤ)

/-- Round to the nearest integer, ties to even — the rounding Go applies when
formatting a float in decimal. -/
def roundHalfEven (q : ℚ) : ℤ :=
  let f := ratFloor q
  let frac := q - (f : ℚ)
  if frac < 1 / 2 then f
  else if 1 / 2 < frac then f + 1
  else if f % 2 = 0 then f else f + 1

/-- Drop trailing `0` characters. -/
def stripTrailingZeros (cs : List Char) : List Char :=
  (cs.reverse.dropWhile (· == '0')).reverse

/-- The exponent part of Go `%g`/`%e` output: sign, then at least two digits. -/
def expDigits (e : ℤ) : String :=
  let a := e.natAbs
  (if e < 0 then "-" else "+") ++ (if a < 10 then "0" ++ Nat.repr a else Nat.repr a)

/-- `q` rounded to `p ≥ 1` significant decimal digits: returns `(n, e)` with
`n` a `p`-digit integer and `n * 10 ^ (e - p + 1)` the rounded value
(a rounding carry, e.g. `999.5 → 10 * 10 ^ 2`, bumps the exponent). -/
def roundSig (q : ℚ) (p : ℕ) : ℤ × ℤ :=
  let e := decExp q
  let n := roundHalfEven (q * pow10 ((p : ℤ) - 1 - e))
  if n = 10 ^ p then ((10 : ℤ) ^ (p - 1), e + 1) else (n, e)

/-- Go `fmt` verb `%.*g` on a positive rational with precision `p ≥ 1`:
round to `p` significant digits, then use `%e`-style when the decimal exponent
is `< -4` or `≥ p` and `%f`-style otherwise, stripping trailing fractional
zeros in both styles. -/
def formatGPos (q : ℚ) (p : ℕ) : String :=
  let ne := roundSig q p
  let n := ne.1
  let e := ne.2
  let ds := (Nat.repr n.toNat).data
  if e < -4 ∨ (p : ℤ) ≤ e then
    (match ds with
     | [] => "0"
     | dHd :: dTl =>
         let dTl1 := stripTrailingZeros dTl
         if dTl1.isEmpty then String.mk [dHd]
         else String.mk [dHd] ++ "." ++ String.mk dTl1) ++ "e" ++ expDigits e
  else if 0 ≤ e then
    let ip := ds.take (e.toNat + 1)
    let fp := stripTrailingZeros (ds.drop (e.toNat + 1))
    if fp.isEmpty then String.mk ip else String.mk ip ++ "." ++ String.mk fp
  else
    "0." ++ String.mk (List.replicate ((-e).toNat - 1) '0' ++ stripTrailingZeros ds)

/-- Go `fmt.Sprintf` with verb `%.*g` (precision `p`), for a finite value. -/
def formatG (q : ℚ) (p : ℕ) : String :=
  if q = 0 then "0"
  else if q < 0 then "-" ++ formatGPos (-q) p
  else formatGPos q p

/-- docker/go-units `decimapAbbrs`: the decimal (base-1000) unit strings. -/
def decimapAbbrs : List String := ["B", "kB", "MB", "GB", "TB", "PB", "EB", "ZB", "YB"]

/-- docker/go-units `getSizeAndUnit`: divide by the base while the size is at
least the base and units remain, returning the scaled size and its unit. -/
def getSizeAndUnit : ℚ → ℚ → List String → ℚ × String
  | size, _, [] => (size, "")
  | size, _, [u] => (size, u)
  | size, base, u :: us =>
      if base ≤ size then getSizeAndUnit (size / base) base us else (size, u)

/-- docker/go-units `HumanSizeWithPrecision` (v0.5.0): base-1000 units with
`%.*g` formatting.  Embedded from the library source (the dependency is not
part of the given repository sources). -/
def HumanSizeWithPrecision (size : ℚ) (precision : ℕ) : String :=
  let su := getSizeAndUnit size 1000 decimapAbbrs
  formatG su.1 precision ++ su.2

/-- Decimal value of a digit string. -/
def digitsVal (ds : List Char) : ℕ :=
  List.foldl (fun a c => 10 * a + (c.toNat - 48)) 0 ds

/-- Read an optional leading sign. -/
def readSign : List Char → ℚ × List Char
  | '+' :: r => (1, r)
  | '-' :: r => (-1, r)
  | r => (1, r)

/-- The exponent part of `strconv.ParseFloat` input: optional sign, then at
least one digit, consuming the whole rest of the string. -/
def parseExpPart (val : ℚ) (r : List Char) : Option ℚ :=
  let sr : ℤ × List Char :=
    match r with
    | '+' :: t => (1, t)
    | '-' :: t => (-1, t)
    | t => (1, t)
  let ed := sr.2.takeWhile Char.isDigit
  if ed.isEmpty || !(sr.2.dropWhile Char.isDigit).isEmpty then none
  else some (val * pow10 (sr.1 * (digitsVal ed : ℤ)))

/-- Go `strconv.ParseFloat`, idealised over the rationals: accepts the decimal
forms `[+-]digits[.digits][(e|E)[+-]digits]` with at least one mantissa digit,
with exact rational semantics.  Hexadecimal floats, the `inf`/`nan` words,
digit-group underscores and overflow are not modelled; no claim depends on
them. -/
def parseFloatQ (s : String) : Option ℚ :=
  let sc := readSign s.data
  let ip := sc.2.takeWhile Char.isDigit
  let rest1 := sc.2.dropWhile Char.isDigit
  let fpRest : List Char × List Char :=
    match rest1 with
    | '.' :: r => (r.takeWhile Char.isDigit, r.dropWhile Char.isDigit)
    | r => ([], r)
  if ip.isEmpty && fpRest.1.isEmpty then none
  else
    let val := sc.1 * ((digitsVal ip : ℚ) + (digitsVal fpRest.1 : ℚ) / pow10 (fpRest.1.length : ℤ))
    match fpRest.2 with
    | [] => some val
    | 'e' :: r => parseExpPart val r
    | 'E' :: r => parseExpPart val r
    | _ => none

/-- Go conversion `int64(f)` for a finite float: truncation toward zero. -/
def truncQ (q : ℚ) : ℤ := if 0 ≤ q then ratFloor q else -(ratFloor (-q))

/-- docker/go-units `decimalMap`: decimal multipliers keyed by the lower-case
unit letter. -/
def decimalMap (c : Char) : Option ℤ :=
  if c = 'k' then some 1000
  else if c = 'm' then some 1000000
  else if c = 'g' then some 1000000000
  else if c = 't' then some 1000000000000
  else if c = 'p' then some 1000000000000000
  else none

/-- A character `strings.LastIndexAny(sizeStr, "01234567890. ")` looks for. -/
def isSepChar (c : Char) : Bool := c.isDigit || c == '.' || c == ' '

/-- Index of the last digit / dot / space in the character list. -/
def lastSepIdx (cs : List Char) : Option ℕ :=
  match cs.reverse.findIdx? isSepChar with
  | some i => some (cs.length - 1 - i)
  | none => none

/-- Wrap a string in single quotes, as `fmt.Errorf("...: '%s'", s)` does. -/
def quoted (s : String) : String := "\x27" ++ s ++ "\x27"

/-- The suffix processing of docker/go-units `parseSize` (v0.5.0), given the
non-empty suffix split off after the number.  In the library's order: reject a
suffix longer than three characters, lower-case it, then handle the trivial
bare-`b` (bytes) case — a `b` first character with *anything* after it is an
invalid suffix ("no extra characters allowed after b") — then look the first
character up in the multiplier map, and finally allow only an extra `b`
(two characters, e.g. `kb`) or `ib` (three characters, e.g. `kib`) after the
mapped letter. -/
def suffixMultiplier (uMap : Char → Option ℤ) (sfx0 : List Char) : Except String ℤ :=
  if 3 < sfx0.length then .error ("invalid suffix: " ++ quoted (String.mk sfx0))
  else
    let sfx := sfx0.map Char.toLower
    match sfx with
    | 'b' :: rest =>
        if rest.isEmpty then .ok 1
        else .error ("invalid suffix: " ++ quoted (String.mk sfx))
    | c :: rest =>
        match uMap c with
        | none => .error ("invalid suffix: " ++ quoted (String.mk sfx))
        | some mul =>
            match rest with
            | [] => .ok mul
            | [b1] =>
                if b1 == 'b' then .ok mul
                else .error ("invalid suffix: " ++ quoted (String.mk sfx))
            | [i1, b1] =>
                if i1 == 'i' && b1 == 'b' then .ok mul
                else .error ("invalid suffix: " ++ quoted (String.mk sfx))
            | _ => .error ("invalid suffix: " ++ quoted (String.mk sfx))
    | [] => .error ("invalid suffix: " ++ quoted (String.mk sfx))

/-- docker/go-units `parseSize` (v0.5.0): split the string at the last
digit / dot / space (a space separator is dropped), parse the leading number,
reject negatives, apply the unit-suffix multiplier and truncate to an integer
byte count.  Embedded from the library source. -/
def parseSize (sizeStr : String) (uMap : Char → Option ℤ) : Except String ℤ :=
  let cs := sizeStr.data
  match lastSepIdx cs with
  | none => .error ("invalid size: " ++ quoted sizeStr)
  | some sep =>
      let numSfx : List Char × List Char :=
        if cs.getD sep ' ' == ' ' then (cs.take sep, cs.drop (sep + 1))
        else (cs.take (sep + 1), cs.drop (sep + 1))
      let num := String.mk numSfx.1
      let sfx := numSfx.2
      match parseFloatQ num with
      | none => .error ("strconv.ParseFloat: parsing \"" ++ num ++ "\": invalid syntax")
      | some size =>
          if size < 0 then .error ("invalid size: " ++ quoted sizeStr)
          else if sfx.isEmpty then .ok (truncQ size)
          else
            match suffixMultiplier uMap sfx with
            | .ok mul => .ok (truncQ (size * (mul : ℚ)))
            | .error e => .error e

/-- docker/go-units `FromHumanSize` (v0.5.0): `parseSize` with the decimal
(base-1000) multiplier map. -/
def FromHumanSize (sizeStr : String) : Except String ℤ := parseSize sizeStr decimalMap

/-- `downloadRate.MarshalJSON`, at the level of the produced JSON string
content (the surrounding JSON quoting is elided): the fixed sentinel for an
infinite rate, otherwise `fmt.Sprintf("%sps", units.HumanSizeWithPrecision(rate, 2))`. -/
def downloadRateMarshalString (dr : GoFloat) : String :=
  match dr with
  | .posInf => "+Inf bps"
  | .negInf => "+Inf bps"
  | .finite q => HumanSizeWithPrecision q 2 ++ "ps"

/-- Whether the character list ends in `ps`. -/
def endsWithPs (cs : List Char) : Bool :=
  match cs.reverse with
  | 's' :: 'p' :: _ => true
  | _ => false

/-- Go `strings.TrimSuffix(s, "ps")`. -/
def trimSuffixPs (s : String) : String :=
  if endsWithPs s.data then String.mk (s.data.take (s.data.length - 2)) else s

/-- `downloadRate.UnmarshalJSON`, at the level of the contained JSON string
(the JSON unquoting step is elided): the sentinel decodes to positive
infinity; otherwise the `ps` suffix is trimmed and `units.FromHumanSize`
parses the rest, its error being returned unchanged on failure. -/
def downloadRateUnmarshalString (s : String) : Except String GoFloat :=
  if s = "+Inf bps" then .ok .posInf
  else
    match FromHumanSize (trimSuffixPs s) with
    | .ok n => .ok (.finite (n : ℚ))
    | .error e => .error e

/-- Format with exactly two fractional digits (for the spec-described
encoder below). -/
def fixedTwo (q : ℚ) : String :=
  let n := roundHalfEven (q * 100)
  let whole := n / 100
  let frac := (n % 100).toNat
  Int.repr whole ++ "." ++ (if frac < 10 then "0" ++ Nat.repr frac else Nat.repr frac)

/-- Modelled from the spec: the encoder the spec's words describe — a
base-1024 magnitude-unit scheme (units `B`, `KiB`, `MiB`, …) with a fixed
precision of two fractional digits and the suffix `ps`; sentinel for the
infinite rate.  Defined only to be compared with the encoder the source
actually implements. -/
def specEncode (dr : GoFloat) : String :=
  match dr with
  | .posInf => "+Inf bps"
  | .negInf => "+Inf bps"
  | .finite q =>
      let su := getSizeAndUnit q 1024
        ["B", "KiB", "MiB", "GiB", "TiB", "PiB", "EiB", "ZiB", "YiB"]
      fixedTwo su.1 ++ su.2 ++ "ps"

/-! ### Helper lemmas -/

unseal Rat.mul Rat.add Rat.sub Rat.inv Rat.ofScientific

theorem decide_eq_refl {α : Type} [DecidableEq α] (a : α) : decide (a = a) = true :=
  decide_eq_true rfl

theorem decide_eq_symm {α : Type} [DecidableEq α] (a b : α) :
    decide (a = b) = decide (b = a) := by
  by_cases h : a = b
  · subst h; rfl
  · rw [decide_eq_false h, decide_eq_false (fun hb => h hb.symm)]

theorem equalTimePointers_symm (a b : Option Time) :
    equalTimePointers a b = equalTimePointers b a := by
  cases a with
  | none => cases b with
    | none => rfl
    | some u => rfl
  | some t => cases b with
    | none => rfl
    | some u => exact decide_eq_symm t.instant u.instant

theorem metadataEquals_symm (m otherM : Metadata) : m.Equals otherM = otherM.Equals m := by
  unfold Metadata.Equals
  rw [equalTimePointers_symm, decide_eq_symm m.failedState, decide_eq_symm m.errorMsg,
    decide_eq_symm m.downloadPercent, decide_eq_symm m.downloadRate]

theorem metadataEquals_refl (m : Metadata) : m.Equals m = true := by
  cases hm : m.scheduledAt with
  | none => simp [Metadata.Equals, equalTimePointers, hm, decide_eq_refl]
  | some t => simp [Metadata.Equals, equalTimePointers, Time.Equal, hm, decide_eq_refl]

/-! ### Claims -/

/-- C1 — counterexample to the claim as stated.  The tracker state
`NewDetails "9.1.0" stateFailed "act-1"` is reachable (a single `create`
call; `create` performs no validation of the initial state), its state is
`Failed`, yet both `failed_state` and `error_msg` are empty — so the
"non-empty if and only if `state == Failed`" biconditional fails in the
only-if-empty direction. -/
theorem c1_counterexample :
    Reachable (NewDetails "9.1.0" stateFailed "act-1" : Details Unit) ∧
    (NewDetails "9.1.0" stateFailed "act-1" : Details Unit).state = stateFailed ∧
    (NewDetails "9.1.0" stateFailed "act-1" : Details Unit).metadata.failedState = "" ∧
    (NewDetails "9.1.0" stateFailed "act-1" : Details Unit).metadata.errorMsg = "" :=
  ⟨Reachable.create "9.1.0" stateFailed "act-1", rfl, rfl, rfl⟩

/-- C1 (amended): for every tracker state reachable via any sequence of
create/setState/setDownloadProgress/fail calls, whenever the state is not
`Failed` both `failed_state` and `error_msg` are empty — equivalently, the
metadata fields are non-empty *only if* `state == Failed`.  (The converse
direction of the claimed biconditional is refuted by `c1_counterexample`.) -/
theorem c1_invariant {Ob : Type} (d : Details Ob) (hr : Reachable d) :
    d.state ≠ stateFailed → d.metadata.failedState = "" ∧ d.metadata.errorMsg = "" := by
  induction hr with
  | create tv s0 aid => intro _; exact ⟨rfl, rfl⟩
  | setState s hd ih =>
      intro hs
      have hfail : s ≠ stateFailed := hs
      simp [Details.SetState, hfail]
  | setDownloadProgress pct rate hd ih => exact ih
  | fail err hd ih =>
      intro hs
      exact absurd rfl hs

/-- C1 — witness: the invariant applied to the freshly created tracker of the
spec's scenario. -/
theorem c1_invariant_witness :
    (NewDetails "9.1.0" stateNotStarted "act-1" : Details Unit).metadata.failedState = "" ∧
    (NewDetails "9.1.0" stateNotStarted "act-1" : Details Unit).metadata.errorMsg = "" :=
  c1_invariant _ (Reachable.create "9.1.0" stateNotStarted "act-1") (by decide)

/-- C2: `Fail err` sets `state = Failed` and `error_msg` to the error's
description; it copies the pre-call state into `failed_state` exactly when the
pre-call state was not `Failed` and leaves `failed_state` unchanged otherwise;
a second `Fail` in a row preserves the `failed_state` captured by the first,
and `failed_state` never becomes `Failed` through `Fail`. -/
theorem c2_fail_spec {Ob : Type} (d : Details Ob) (err err2 : GoError) :
    (d.Fail err).1.state = stateFailed ∧
    (d.Fail err).1.metadata.errorMsg = err.Error ∧
    (d.state ≠ stateFailed → (d.Fail err).1.metadata.failedState = d.state) ∧
    (d.state = stateFailed →
      (d.Fail err).1.metadata.failedState = d.metadata.failedState) ∧
    ((d.Fail err).1.Fail err2).1.metadata.failedState = (d.Fail err).1.metadata.failedState ∧
    (d.metadata.failedState ≠ stateFailed →
      (d.Fail err).1.metadata.failedState ≠ stateFailed) := by
  refine ⟨rfl, rfl, ?_, ?_, ?_, ?_⟩
  · intro h; simp [Details.Fail, h]
  · intro h; simp [Details.Fail, h]
  · simp [Details.Fail]
  · intro h
    by_cases hs : d.state = stateFailed
    · simp [Details.Fail, hs, h]
    · simp [Details.Fail, hs]

/-- C2 — witness: failing the freshly created tracker of the spec's scenario
records `NotStarted` as the pre-failure state, which is not `Failed`. -/
theorem c2_fail_spec_witness :
    ((NewDetails "9.1.0" stateNotStarted "act-1" : Details Unit).Fail
        ⟨"disk full"⟩).1.metadata.failedState = stateNotStarted ∧
    ((NewDetails "9.1.0" stateNotStarted "act-1" : Details Unit).Fail
        ⟨"disk full"⟩).1.metadata.failedState ≠ stateFailed := by
  have h := c2_fail_spec (NewDetails "9.1.0" stateNotStarted "act-1" : Details Unit)
    ⟨"disk full"⟩ ⟨"disk full"⟩
  exact ⟨h.2.2.1 (by decide), h.2.2.2.2.2 (by decide)⟩

/-- C3: `SetState s` assigns `state = s`, and when `s ≠ Failed` it leaves both
`failed_state` and `error_msg` empty (the clearing is unconditional, so they
are empty after the call whatever they were before). -/
theorem c3_setState_spec {Ob : Type} (d : Details Ob) (s : State) :
    (d.SetState s).1.state = s ∧
    (s ≠ stateFailed →
      (d.SetState s).1.metadata.failedState = "" ∧
      (d.SetState s).1.metadata.errorMsg = "") := by
  refine ⟨rfl, ?_⟩
  intro h
  simp [Details.SetState, h]

/-- C3 — witness: `SetState Downloading` on a tracker created in the `Failed`
state clears both metadata fields. -/
theorem c3_setState_spec_witness :
    ((NewDetails "9.1.0" stateFailed "act-1" : Details Unit).SetState
        stateDownloading).1.state = stateDownloading ∧
    ((NewDetails "9.1.0" stateFailed "act-1" : Details Unit).SetState
        stateDownloading).1.metadata.failedState = "" ∧
    ((NewDetails "9.1.0" stateFailed "act-1" : Details Unit).SetState
        stateDownloading).1.metadata.errorMsg = "" := by
  have h := c3_setState_spec (NewDetails "9.1.0" stateFailed "act-1" : Details Unit)
    stateDownloading
  exact ⟨h.1, (h.2 (by decide)).1, (h.2 (by decide)).2⟩

/-- C4 — counterexample to the claim as stated: at the claim's own rate 1536,
`decode (encode 1536)` is 1500 (the encoder keeps only two *significant*
digits, `1536 → "1.5kBps"`), and 1500 is not within 1% of 1536. -/
theorem c4_counterexample :
    downloadRateMarshalString (.finite 1536) = "1.5kBps" ∧
    downloadRateUnmarshalString "1.5kBps" = .ok (.finite 1500) ∧
    ¬ ratAbs ((1500 : ℚ) - 1536) ≤ 1536 / 100 :=
  ⟨by rfl, by rfl, by decide⟩

/-- C4 (amended): for each rate `r` in `{0, 1536, 1048576, 123456789.5}`,
`decode (encode r)` is within 5% of `r` — the rounding tolerance of the
two-significant-digit precision (Go `%.2g`) the encoder actually uses, with
the decoder truncating to whole bytes — and `decode (encode +Inf)` is exactly
`+Inf`. -/
theorem c4_roundtrip :
    downloadRateUnmarshalString (downloadRateMarshalString (.finite 0)) = .ok (.finite 0) ∧
    (downloadRateUnmarshalString (downloadRateMarshalString (.finite 1536)) =
        .ok (.finite 1500) ∧
      ratAbs ((1500 : ℚ) - 1536) ≤ 5 * 1536 / 100) ∧
    (downloadRateUnmarshalString (downloadRateMarshalString (.finite 1048576)) =
        .ok (.finite 1000000) ∧
      ratAbs ((1000000 : ℚ) - 1048576) ≤ 5 * 1048576 / 100) ∧
    (downloadRateUnmarshalString (downloadRateMarshalString (.finite 123456789.5)) =
        .ok (.finite 120000000) ∧
      ratAbs ((120000000 : ℚ) - 123456789.5) ≤ 5 * 123456789.5 / 100) ∧
    downloadRateUnmarshalString (downloadRateMarshalString .posInf) = .ok .posInf := by
  refine ⟨by rfl, ⟨by rfl, by decide⟩, ⟨by rfl, by decide⟩, ⟨by rfl, by decide⟩, by rfl⟩

/-- C5 — counterexample to the claim as stated: at rate 1536 the source's
encoder produces `"1.5kBps"` (base-1000 unit `kB`, two significant digits),
not the `"1.50KiBps"` that the claimed base-1024 / two-fractional-digit
scheme (formalised as `specEncode`) would produce. -/
theorem c5_counterexample :
    downloadRateMarshalString (.finite 1536) = "1.5kBps" ∧
    specEncode (.finite 1536) = "1.50KiBps" ∧
    downloadRateMarshalString (.finite 1536) ≠ specEncode (.finite 1536) := by
  refine ⟨by rfl, by rfl, ?_⟩
  intro h
  rw [show downloadRateMarshalString (.finite 1536) = "1.5kBps" from by rfl,
    show specEncode (.finite 1536) = "1.50KiBps" from by rfl] at h
  exact absurd h (by decide)

/-- C5 (amended): `encode` returns the fixed sentinel `"+Inf bps"` for an
infinite rate (either sign, as `math.IsInf(x, 0)` covers both); otherwise it
returns the rate formatted by go-units' base-1000 magnitude-unit scheme
(units `B`, `kB`, `MB`, …) at two *significant* digits (Go `%.2g`) followed by
the suffix `"ps"`, yielding forms like `"1.5kBps"`. -/
theorem c5_encode_spec (q : ℚ) :
    downloadRateMarshalString .posInf = "+Inf bps" ∧
    downloadRateMarshalString .negInf = "+Inf bps" ∧
    downloadRateMarshalString (.finite q) = HumanSizeWithPrecision q 2 ++ "ps" ∧
    downloadRateMarshalString (.finite 1536) = "1.5kBps" ∧
    downloadRateMarshalString (.finite 1048576) = "1MBps" :=
  ⟨rfl, rfl, rfl, by rfl, by rfl⟩

/-- C6: `decode` returns exactly `+Inf` on the sentinel `"+Inf bps"`; on any
other input it returns exactly what `FromHumanSize` parses from the input with
its trailing `"ps"` suffix stripped, and when that parse fails the parse error
is propagated unchanged to the caller (never swallowed, never silently turned
into a zero rate); a malformed input such as `"garbage"` yields the parse
error naming the unparseable input, and a malformed unit suffix — e.g. the
multi-character `b`-suffixes of `"1bbps"` and `"0bbps"` — yields the
invalid-suffix parse error rather than a (zero) rate.  The decoder is a total
function — no panic. -/
theorem c6_decode_spec (s : String) :
    downloadRateUnmarshalString "+Inf bps" = .ok .posInf ∧
    (s ≠ "+Inf bps" →
      downloadRateUnmarshalString s =
        (FromHumanSize (trimSuffixPs s)).map fun n => GoFloat.finite (n : ℚ)) ∧
    (∀ e, s ≠ "+Inf bps" → FromHumanSize (trimSuffixPs s) = .error e →
      downloadRateUnmarshalString s = .error e) ∧
    downloadRateUnmarshalString "garbage" = .error ("invalid size: " ++ quoted "garbage") ∧
    downloadRateUnmarshalString "1bbps" = .error ("invalid suffix: " ++ quoted "bb") ∧
    downloadRateUnmarshalString "0bbps" = .error ("invalid suffix: " ++ quoted "bb") := by
  refine ⟨by rfl, ?_, ?_, by rfl, by rfl, by rfl⟩
  · intro hs
    simp only [downloadRateUnmarshalString, if_neg hs]
    cases FromHumanSize (trimSuffixPs s) with
    | ok n => rfl
    | error e => rfl
  · intro e hs he
    simp only [downloadRateUnmarshalString, if_neg hs, he]

/-- C6 — witness: a well-formed rate string decodes to its parsed value, and a
malformed one produces the propagated `ParseFloat` error. -/
theorem c6_decode_spec_witness :
    downloadRateUnmarshalString "1.5kBps" = .ok (.finite 1500) ∧
    downloadRateUnmarshalString "bogus input" =
      .error ("strconv.ParseFloat: parsing \"bogus\": invalid syntax") := by
  have h1 := (c6_decode_spec "1.5kBps").2.1 (by decide)
  have h2 := (c6_decode_spec "bogus input").2.2.1
    ("strconv.ParseFloat: parsing \"bogus\": invalid syntax") (by decide) (by rfl)
  exact ⟨by rw [h1]; rfl, h2⟩

/-- The notification contract of a mutating call `f`: the events it delivers
pair every observer registered before the call, in registration order, each
exactly once, with `none` (the nil/"stop" marker) when the post-mutation state
is `Completed` and otherwise with a fresh copy holding only the serializable
fields — target version, state, action id, metadata — and an empty observer
list. -/
def notifiesAll {Ob : Type}
    (f : Details Ob → Details Ob × List (Ob × Option (Details Ob)))
    (d : Details Ob) : Prop :=
  (f d).2 =
    d.observers.map fun ob =>
      (ob,
        if (f d).1.state = stateCompleted then none
        else some
          { targetVersion := (f d).1.targetVersion, state := (f d).1.state,
            actionID := (f d).1.actionID, metadata := (f d).1.metadata,
            observers := [] })

/-- C7: each of the three mutating calls — `SetState`, `SetDownloadProgress`
and `Fail` — notifies every registered observer exactly once, in registration
order, before it returns, passing `none` exactly when the state after the
mutation is `Completed` and otherwise a fresh snapshot copy that excludes the
observer list (and lock). -/
theorem c7_mutators_notify {Ob : Type} (d : Details Ob) (s : State)
    (pct rate : GoFloat) (err : GoError) :
    notifiesAll (fun x => x.SetState s) d ∧
    notifiesAll (fun x => x.SetDownloadProgress pct rate) d ∧
    notifiesAll (fun x => x.Fail err) d :=
  ⟨rfl, rfl, rfl⟩

/-- C8: `RegisterObserver ob` appends `ob` to the observer list, leaves every
snapshot field unchanged, and immediately delivers exactly one notification to
`ob` alone: the `none` marker when the current state is `Completed`, otherwise
one snapshot copy matching the tracker's current fields. -/
theorem c8_registerObserver_spec {Ob : Type} (d : Details Ob) (ob : Ob) :
    (d.RegisterObserver ob).1.observers = d.observers ++ [ob] ∧
    (d.RegisterObserver ob).1.targetVersion = d.targetVersion ∧
    (d.RegisterObserver ob).1.state = d.state ∧
    (d.RegisterObserver ob).1.actionID = d.actionID ∧
    (d.RegisterObserver ob).1.metadata = d.metadata ∧
    (d.RegisterObserver ob).2 =
      [(ob,
        if d.state = stateCompleted then none
        else some
          { targetVersion := d.targetVersion, state := d.state,
            actionID := d.actionID, metadata := d.metadata, observers := [] })] :=
  ⟨rfl, rfl, rfl, rfl, rfl, rfl⟩

/-- C9: `Equals` is reflexive and symmetric over all tracker values including
nil (`none`); two nil trackers are equal; a nil and a non-nil tracker are
never equal; two trackers with identical state, target version, action id and
metadata are equal even when their observer lists differ; and the
`scheduled_at` timestamps are compared as semantic instants (`time.Time.Equal`),
so two representations of the same instant compare equal. -/
theorem c9_equals_spec {Ob : Type} (x y : Option (Details Ob)) (d : Details Ob)
    (obs1 obs2 : List Ob) (t : ℤ) (loc1 loc2 : String) :
    Details.Equals x x = true ∧
    Details.Equals x y = Details.Equals y x ∧
    Details.Equals (none : Option (Details Ob)) none = true ∧
    Details.Equals (some d) none = false ∧
    Details.Equals none (some d) = false ∧
    Details.Equals (some { d with observers := obs1 })
      (some { d with observers := obs2 }) = true ∧
    Details.Equals
      (some { d with metadata := { d.metadata with scheduledAt := some ⟨t, loc1⟩ } })
      (some { d with metadata := { d.metadata with scheduledAt := some ⟨t, loc2⟩ } }) =
      true := by
  refine ⟨?_, ?_, rfl, rfl, rfl, ?_, ?_⟩
  · cases x with
    | none => rfl
    | some dd => simp [Details.Equals, metadataEquals_refl, decide_eq_refl]
  · cases x with
    | none => cases y with
      | none => rfl
      | some dd => rfl
    | some dd => cases y with
      | none => rfl
      | some ee =>
          simp only [Details.Equals]
          rw [decide_eq_symm dd.state ee.state,
            decide_eq_symm dd.targetVersion ee.targetVersion,
            decide_eq_symm dd.actionID ee.actionID,
            metadataEquals_symm dd.metadata ee.metadata]
  · simp [Details.Equals, metadataEquals_refl, decide_eq_refl]
  · simp [Details.Equals, Metadata.Equals, equalTimePointers, Time.Equal, decide_eq_refl]

/-- C10: `SetState stateFailed` leaves the whole metadata — in particular
`failed_state` and `error_msg` — exactly as it was (the clearing branch only
runs for non-`Failed` arguments, and nothing is populated): failure metadata
recorded by an earlier `Fail` persists across it, and on a fresh tracker it
reaches `Failed` with both fields still empty. -/
theorem c10_setState_failed_frame {Ob : Type} (d : Details Ob) (err : GoError)
    (tv aid : String) (s0 : State) :
    (d.SetState stateFailed).1.metadata = d.metadata ∧
    (d.SetState stateFailed).1.state = stateFailed ∧
    ((d.Fail err).1.SetState stateFailed).1.metadata.failedState =
      (d.Fail err).1.metadata.failedState ∧
    ((d.Fail err).1.SetState stateFailed).1.metadata.errorMsg = err.Error ∧
    ((NewDetails tv s0 aid : Details Ob).SetState stateFailed).1.metadata.failedState = "" ∧
    ((NewDetails tv s0 aid : Details Ob).SetState stateFailed).1.metadata.errorMsg = "" := by
  have hmeta : ∀ x : Details Ob, (x.SetState stateFailed).1.metadata = x.metadata := by
    intro x
    simp [Details.SetState]
  refine ⟨hmeta d, rfl, ?_, ?_, ?_, ?_⟩
  · rw [hmeta]
  · rw [hmeta]; rfl
  · rw [hmeta]; rfl
  · rw [hmeta]; rfl

end UpgradeDetails
